import Mathlib

/-!
Verification of the agent-metadata validation library
(`src/contracts/agent-metadata/src/lib.rs`).

Byte sequences (`soroban_sdk::Bytes`) are embedded as lists of naturals;
only their lengths and byte-for-byte equality matter to the code under
study.  The `common-utils` parser framework (`ValidationError`,
`MetadataParser`, `MetadataBuilder`, `ParserConfig`, `ParsedMetadata`) is
referenced by the library but its source is not part of this tree; those
definitions are modelled from the specification, as marked below.  The
variant set of `ValidationError` itself is pinned by the exhaustive
`match` in `MetadataError::from_validation_error` (lib.rs lines 42-51),
which compiles only if the canonical enum has exactly the six variants
named there.
-/

/-- Byte sequences: `soroban_sdk::Bytes` as a list of byte values. -/
abbrev Bytes := List Nat

/-- Canonical validation error kinds from `common_utils::error::ValidationError`.
The exhaustive match in `MetadataError::from_validation_error` (lib.rs 42-51)
fixes exactly these six variants. -/
inductive ValidationError where
  | InvalidJsonStructure
  | MissingRequiredField
  | InvalidCidFormat
  | InvalidHashFormat
  | InvalidFormat
  | InvalidLength
deriving DecidableEq, Repr, Fintype

/-- Legacy error type `MetadataError` (lib.rs 11-26). -/
inductive MetadataError where
  | InvalidJsonFormat
  | MissingRequiredField
  | InvalidCidFormat
  | HashVerificationFailed
  | InvalidStructure
  | CidTooLong
  | HashTooLong
deriving DecidableEq, Repr, Fintype

namespace MetadataError

/-- `MetadataError::to_validation_error` (lib.rs 30-39). -/
def to_validation_error : MetadataError → ValidationError
  | .InvalidJsonFormat => .InvalidJsonStructure
  | .MissingRequiredField => .MissingRequiredField
  | .InvalidCidFormat => .InvalidCidFormat
  | .HashVerificationFailed => .InvalidHashFormat
  | .InvalidStructure => .InvalidFormat
  | .CidTooLong => .InvalidLength
  | .HashTooLong => .InvalidLength

/-- `MetadataError::from_validation_error` (lib.rs 42-51). -/
def from_validation_error : ValidationError → MetadataError
  | .InvalidJsonStructure => .InvalidJsonFormat
  | .MissingRequiredField => .MissingRequiredField
  | .InvalidCidFormat => .InvalidCidFormat
  | .InvalidHashFormat => .HashVerificationFailed
  | .InvalidFormat => .InvalidStructure
  | .InvalidLength => .CidTooLong

end MetadataError

/-- `ParsedMetadata` from `common_utils::parser::metadata_parser`.
Modelled from the spec: the parser's raw output shape, carrying the same
six fields as the record (spec section 3, section 4.2). -/
structure ParsedMetadata where
  json_cid : Bytes
  model_hash : Bytes
  name : Bytes
  description : Bytes
  version : Bytes
  extra_fields : List (Bytes × Bytes)
deriving DecidableEq, Repr

/-- `AgentMetadata` (lib.rs 57-70). -/
structure AgentMetadata where
  json_cid : Bytes
  model_hash : Bytes
  name : Bytes
  description : Bytes
  version : Bytes
  extra_fields : List (Bytes × Bytes)
deriving DecidableEq, Repr

/-- `AgentMetadata::from_parsed` (lib.rs 74-83). -/
def AgentMetadata.from_parsed (parsed : ParsedMetadata) : AgentMetadata :=
  { json_cid := parsed.json_cid
    model_hash := parsed.model_hash
    name := parsed.name
    description := parsed.description
    version := parsed.version
    extra_fields := parsed.extra_fields }

namespace cid

/-- `cid::MAX_CID_LENGTH` (lib.rs 90). -/
def MAX_CID_LENGTH : Nat := 100

/-- `cid::MIN_CID_LENGTH` (lib.rs 91). -/
def MIN_CID_LENGTH : Nat := 10

/-- `cid::is_valid_cid` (lib.rs 94-103), kept with the source's redundant
second check. -/
def is_valid_cid (c : Bytes) : Bool :=
  let len := c.length
  if len < MIN_CID_LENGTH || len > MAX_CID_LENGTH then
    false
  else
    decide (len ≥ MIN_CID_LENGTH) && decide (len ≤ MAX_CID_LENGTH)

end cid

namespace hash

/-- `hash::MAX_HASH_LENGTH` (lib.rs 110). -/
def MAX_HASH_LENGTH : Nat := 128

/-- `hash::MIN_HASH_LENGTH` (lib.rs 111). -/
def MIN_HASH_LENGTH : Nat := 32

/-- `hash::is_valid_hash` (lib.rs 114-123), kept with the source's
redundant second check. -/
def is_valid_hash (h : Bytes) : Bool :=
  let len := h.length
  if len < MIN_HASH_LENGTH || len > MAX_HASH_LENGTH then
    false
  else
    decide (len ≥ MIN_HASH_LENGTH) && decide (len ≤ MAX_HASH_LENGTH)

end hash

/-- `ParserConfig` from `common_utils::parser`.
Modelled from the spec: length-bound overrides for CID and hash, each
overridable independently, with omitted values falling back to the
defaults MIN_CID_LEN 10, MAX_CID_LEN 100, MIN_HASH_LEN 32,
MAX_HASH_LEN 128 (spec sections 3, 4.1, 4.2). -/
structure ParserConfig where
  min_cid_len : Nat := 10
  max_cid_len : Nat := 100
  min_hash_len : Nat := 32
  max_hash_len : Nat := 128
deriving DecidableEq, Repr

/-- `MetadataParser` from `common_utils::parser`.
Modelled from the spec: a parser instance holding its immutable
configuration (spec sections 3, 4.2). -/
structure MetadataParser where
  config : ParserConfig
deriving DecidableEq, Repr

namespace MetadataParser

/-- `MetadataParser::new`. Modelled from the spec: default
configuration (spec section 4.2). -/
def new : MetadataParser := { config := {} }

/-- `MetadataParser::with_config`. Modelled from the spec: a parser
with a caller-supplied configuration (spec section 4.2). -/
def with_config (config : ParserConfig) : MetadataParser := { config := config }

/-- `MetadataParser::parse_cid`, i.e. the spec's `validate_content_id`.
Modelled from the spec: fails with `InvalidLength` if
`len < MIN_CID_LEN` or `len > MAX_CID_LEN`, otherwise succeeds with the
value; structural check only (spec section 4.1). -/
def parse_cid (p : MetadataParser) (c : Bytes) : Except ValidationError Bytes :=
  if c.length < p.config.min_cid_len || c.length > p.config.max_cid_len then
    .error .InvalidLength
  else
    .ok c

/-- `MetadataParser::parse_hash`, i.e. the spec's `validate_hash`.
Modelled from the spec: fails with `InvalidLength` if
`len < MIN_HASH_LEN` or `len > MAX_HASH_LEN`, otherwise succeeds with
the value; no character-set validation (spec section 4.1). -/
def parse_hash (p : MetadataParser) (h : Bytes) : Except ValidationError Bytes :=
  if h.length < p.config.min_hash_len || h.length > p.config.max_hash_len then
    .error .InvalidLength
  else
    .ok h

/-- The spec's `validate_required_text`. Modelled from the spec: fails
with `MissingRequiredField` if the byte sequence is empty; used for
`name` (spec section 4.1). -/
def validate_required_text (b : Bytes) : Except ValidationError Bytes :=
  if b.isEmpty then .error .MissingRequiredField else .ok b

/-- `MetadataParser::parse_metadata`. Modelled from the spec: validates
the full candidate record, short-circuiting on first failure, in the
fixed order content id, hash, name; description, version and extra
fields pass through unchecked (spec sections 4.2, 7). -/
def parse_metadata (p : MetadataParser) (json_cid model_hash name description version : Bytes)
    (extra_fields : List (Bytes × Bytes)) : Except ValidationError ParsedMetadata := do
  let c ← p.parse_cid json_cid
  let h ← p.parse_hash model_hash
  let n ← validate_required_text name
  .ok { json_cid := c
        model_hash := h
        name := n
        description := description
        version := version
        extra_fields := extra_fields }

end MetadataParser

/-- `MetadataBuilder` from `common_utils::parser`.
Modelled from the spec: a staging struct with all-optional fields,
each `with_<field>` call storing the value verbatim (spec section 4.3). -/
structure MetadataBuilder where
  cid : Option Bytes := none
  hash : Option Bytes := none
  name : Option Bytes := none
  description : Option Bytes := none
  version : Option Bytes := none
deriving DecidableEq, Repr

namespace MetadataBuilder

/-- `MetadataBuilder::new`. Modelled from the spec: an empty staging
struct (spec section 4.3). -/
def new : MetadataBuilder := {}

/-- `MetadataBuilder::with_cid`. Modelled from the spec: stores the
value verbatim, no validation at call time (spec section 4.3). -/
def with_cid (b : MetadataBuilder) (c : Bytes) : MetadataBuilder := { b with cid := some c }

/-- `MetadataBuilder::with_hash`. Modelled from the spec (section 4.3). -/
def with_hash (b : MetadataBuilder) (h : Bytes) : MetadataBuilder := { b with hash := some h }

/-- `MetadataBuilder::with_name`. Modelled from the spec (section 4.3). -/
def with_name (b : MetadataBuilder) (n : Bytes) : MetadataBuilder := { b with name := some n }

/-- `MetadataBuilder::with_description`. Modelled from the spec (section 4.3). -/
def with_description (b : MetadataBuilder) (d : Bytes) : MetadataBuilder :=
  { b with description := some d }

/-- `MetadataBuilder::with_version`. Modelled from the spec (section 4.3). -/
def with_version (b : MetadataBuilder) (v : Bytes) : MetadataBuilder := { b with version := some v }

/-- `MetadataBuilder::build`. Modelled from the spec: runs the exact
same validation sequence as the parser over the accumulated values,
treating any field never supplied as empty/absent (spec sections 4.3,
design note in section 9). -/
def build (b : MetadataBuilder) : Except ValidationError ParsedMetadata :=
  MetadataParser.new.parse_metadata (b.cid.getD []) (b.hash.getD []) (b.name.getD [])
    (b.description.getD []) (b.version.getD []) []

end MetadataBuilder

/-- `MetadataValidator` (lib.rs 129-131). -/
structure MetadataValidator where
  parser : MetadataParser
deriving DecidableEq, Repr

namespace MetadataValidator

/-- `MetadataValidator::new` (lib.rs 135-139). -/
def new : MetadataValidator := { parser := MetadataParser.new }

/-- `MetadataValidator::with_config` (lib.rs 142-146). -/
def with_config (config : ParserConfig) : MetadataValidator :=
  { parser := MetadataParser.with_config config }

/-- `MetadataValidator::validate_and_parse` (lib.rs 161-184). -/
def validate_and_parse (v : MetadataValidator) (json_cid model_hash name description version : Bytes)
    (extra_fields : List (Bytes × Bytes)) : Except MetadataError AgentMetadata :=
  match v.parser.parse_metadata json_cid model_hash name description version extra_fields with
  | .error e => .error (MetadataError.from_validation_error e)
  | .ok parsed => .ok (AgentMetadata.from_parsed parsed)

/-- `MetadataValidator::validate_cid` (lib.rs 187-191). -/
def validate_cid (v : MetadataValidator) (c : Bytes) : Except MetadataError Unit :=
  match v.parser.parse_cid c with
  | .error e => .error (MetadataError.from_validation_error e)
  | .ok _ => .ok ()

/-- `MetadataValidator::validate_model_hash` (lib.rs 194-198). -/
def validate_model_hash (v : MetadataValidator) (h : Bytes) : Except MetadataError Unit :=
  match v.parser.parse_hash h with
  | .error e => .error (MetadataError.from_validation_error e)
  | .ok _ => .ok ()

/-- `MetadataValidator::verify_hash` (lib.rs 201-207). -/
def verify_hash (_v : MetadataValidator) (provided_hash expected_hash : Bytes) :
    Except MetadataError Unit :=
  if provided_hash = expected_hash then
    .ok ()
  else
    .error .HashVerificationFailed

end MetadataValidator

namespace convenience

/-- `convenience::validate_metadata_quick` (lib.rs 221-240). -/
def validate_metadata_quick (json_cid model_hash name description version : Bytes) :
    Except MetadataError AgentMetadata :=
  let validator := MetadataValidator.new
  let empty_fields : List (Bytes × Bytes) := []
  validator.validate_and_parse json_cid model_hash name description version empty_fields

/-- `convenience::validate_cid_and_hash` (lib.rs 243-252). -/
def validate_cid_and_hash (json_cid model_hash : Bytes) : Except MetadataError Unit := do
  let validator := MetadataValidator.new
  let _ ← validator.validate_cid json_cid
  let _ ← validator.validate_model_hash model_hash
  .ok ()

/-- `convenience::build_metadata` (lib.rs 255-272). -/
def build_metadata (json_cid model_hash name description version : Bytes) :
    Except MetadataError AgentMetadata :=
  match (MetadataBuilder.new.with_cid json_cid |>.with_hash model_hash |>.with_name name
      |>.with_description description |>.with_version version).build with
  | .error e => .error (MetadataError.from_validation_error e)
  | .ok parsed => .ok (AgentMetadata.from_parsed parsed)

end convenience

/-! ### Helper lemmas -/

/-- The default-configured CID check in closed form. -/
lemma parse_cid_new_eq (b : Bytes) :
    MetadataParser.new.parse_cid b =
      if b.length < 10 || b.length > 100 then .error .InvalidLength else .ok b := rfl

/-- The default-configured hash check in closed form. -/
lemma parse_hash_new_eq (b : Bytes) :
    MetadataParser.new.parse_hash b =
      if b.length < 32 || b.length > 128 then .error .InvalidLength else .ok b := rfl

lemma validate_cid_new_eq (b : Bytes) :
    MetadataValidator.new.validate_cid b =
      if b.length < 10 || b.length > 100 then .error .CidTooLong else .ok () := by
  unfold MetadataValidator.validate_cid
  rw [show MetadataValidator.new.parser = MetadataParser.new from rfl, parse_cid_new_eq]
  cases h : (decide (b.length < 10) || decide (b.length > 100)) <;> first
  | (simp [h]; rfl)
  | simp [h]

lemma validate_model_hash_new_eq (b : Bytes) :
    MetadataValidator.new.validate_model_hash b =
      if b.length < 32 || b.length > 128 then .error .CidTooLong else .ok () := by
  unfold MetadataValidator.validate_model_hash
  rw [show MetadataValidator.new.parser = MetadataParser.new from rfl, parse_hash_new_eq]
  cases h : (decide (b.length < 32) || decide (b.length > 128)) <;> first
  | (simp [h]; rfl)
  | simp [h]

lemma parse_metadata_new_eq (jc mh nm ds vr : Bytes) (ef : List (Bytes × Bytes)) :
    MetadataParser.new.parse_metadata jc mh nm ds vr ef =
      if jc.length < 10 || jc.length > 100 then .error .InvalidLength
      else if mh.length < 32 || mh.length > 128 then .error .InvalidLength
      else if nm.isEmpty then .error .MissingRequiredField
      else .ok ⟨jc, mh, nm, ds, vr, ef⟩ := by
  unfold MetadataParser.parse_metadata MetadataParser.validate_required_text
  rw [parse_cid_new_eq, parse_hash_new_eq]
  cases h1 : (decide (jc.length < 10) || decide (jc.length > 100)) <;>
    cases h2 : (decide (mh.length < 32) || decide (mh.length > 128)) <;>
      cases h3 : nm.isEmpty <;>
        simp [h1, h2, h3, Bind.bind, Except.bind]

lemma validate_and_parse_new_eq (jc mh nm ds vr : Bytes) (ef : List (Bytes × Bytes)) :
    MetadataValidator.new.validate_and_parse jc mh nm ds vr ef =
      if jc.length < 10 || jc.length > 100 then .error .CidTooLong
      else if mh.length < 32 || mh.length > 128 then .error .CidTooLong
      else if nm.isEmpty then .error .MissingRequiredField
      else .ok ⟨jc, mh, nm, ds, vr, ef⟩ := by
  unfold MetadataValidator.validate_and_parse
  rw [show MetadataValidator.new.parser = MetadataParser.new from rfl, parse_metadata_new_eq]
  cases h1 : (decide (jc.length < 10) || decide (jc.length > 100)) <;>
    cases h2 : (decide (mh.length < 32) || decide (mh.length > 128)) <;>
      cases h3 : nm.isEmpty <;>
        simp [h1, h2, h3, MetadataError.from_validation_error, AgentMetadata.from_parsed]

lemma is_valid_cid_iff (b : Bytes) :
    cid.is_valid_cid b = true ↔ 10 ≤ b.length ∧ b.length ≤ 100 := by
  unfold cid.is_valid_cid cid.MIN_CID_LENGTH cid.MAX_CID_LENGTH
  cases h1 : (decide (b.length < 10) || decide (b.length > 100)) <;>
    · simp at h1 ⊢
      try omega

lemma is_valid_hash_iff (b : Bytes) :
    hash.is_valid_hash b = true ↔ 32 ≤ b.length ∧ b.length ≤ 128 := by
  unfold hash.is_valid_hash hash.MIN_HASH_LENGTH hash.MAX_HASH_LENGTH
  cases h1 : (decide (b.length < 32) || decide (b.length > 128)) <;>
    · simp at h1 ⊢
      try omega

lemma validate_cid_new_iff (b : Bytes) :
    MetadataValidator.new.validate_cid b =
      if 10 ≤ b.length ∧ b.length ≤ 100 then .ok () else .error .CidTooLong := by
  rw [validate_cid_new_eq]
  by_cases hc : 10 ≤ b.length ∧ b.length ≤ 100
  · have hb : (decide (b.length < 10) || decide (b.length > 100)) = false := by
      simp only [Bool.or_eq_false_iff, decide_eq_false_iff_not]
      omega
    simp [hb, hc]
  · have hb : (decide (b.length < 10) || decide (b.length > 100)) = true := by
      simp only [Bool.or_eq_true, decide_eq_true_eq]
      omega
    simp [hb, hc]

lemma parse_cid_new_iff (b : Bytes) :
    MetadataParser.new.parse_cid b =
      if 10 ≤ b.length ∧ b.length ≤ 100 then .ok b else .error .InvalidLength := by
  rw [parse_cid_new_eq]
  by_cases hc : 10 ≤ b.length ∧ b.length ≤ 100
  · have hb : (decide (b.length < 10) || decide (b.length > 100)) = false := by
      simp only [Bool.or_eq_false_iff, decide_eq_false_iff_not]
      omega
    simp [hb, hc]
  · have hb : (decide (b.length < 10) || decide (b.length > 100)) = true := by
      simp only [Bool.or_eq_true, decide_eq_true_eq]
      omega
    simp [hb, hc]

lemma validate_model_hash_new_iff (b : Bytes) :
    MetadataValidator.new.validate_model_hash b =
      if 32 ≤ b.length ∧ b.length ≤ 128 then .ok () else .error .CidTooLong := by
  rw [validate_model_hash_new_eq]
  by_cases hc : 32 ≤ b.length ∧ b.length ≤ 128
  · have hb : (decide (b.length < 32) || decide (b.length > 128)) = false := by
      simp only [Bool.or_eq_false_iff, decide_eq_false_iff_not]
      omega
    simp [hb, hc]
  · have hb : (decide (b.length < 32) || decide (b.length > 128)) = true := by
      simp only [Bool.or_eq_true, decide_eq_true_eq]
      omega
    simp [hb, hc]

lemma parse_hash_new_iff (b : Bytes) :
    MetadataParser.new.parse_hash b =
      if 32 ≤ b.length ∧ b.length ≤ 128 then .ok b else .error .InvalidLength := by
  rw [parse_hash_new_eq]
  by_cases hc : 32 ≤ b.length ∧ b.length ≤ 128
  · have hb : (decide (b.length < 32) || decide (b.length > 128)) = false := by
      simp only [Bool.or_eq_false_iff, decide_eq_false_iff_not]
      omega
    simp [hb, hc]
  · have hb : (decide (b.length < 32) || decide (b.length > 128)) = true := by
      simp only [Bool.or_eq_true, decide_eq_true_eq]
      omega
    simp [hb, hc]

lemma validate_and_parse_new_iff (jc mh nm ds vr : Bytes) (ef : List (Bytes × Bytes)) :
    MetadataValidator.new.validate_and_parse jc mh nm ds vr ef =
      if ¬(10 ≤ jc.length ∧ jc.length ≤ 100) then .error .CidTooLong
      else if ¬(32 ≤ mh.length ∧ mh.length ≤ 128) then .error .CidTooLong
      else if nm = [] then .error .MissingRequiredField
      else .ok ⟨jc, mh, nm, ds, vr, ef⟩ := by
  rw [validate_and_parse_new_eq]
  by_cases h1 : 10 ≤ jc.length ∧ jc.length ≤ 100
  · have hb1 : (decide (jc.length < 10) || decide (jc.length > 100)) = false := by
      simp only [Bool.or_eq_false_iff, decide_eq_false_iff_not]
      omega
    by_cases h2 : 32 ≤ mh.length ∧ mh.length ≤ 128
    · have hb2 : (decide (mh.length < 32) || decide (mh.length > 128)) = false := by
        simp only [Bool.or_eq_false_iff, decide_eq_false_iff_not]
        omega
      by_cases h3 : nm = []
      · simp [hb1, hb2, h1, h2, h3]
      · simp [hb1, hb2, h1, h2, h3, List.isEmpty_iff]
    · have hb2 : (decide (mh.length < 32) || decide (mh.length > 128)) = true := by
        simp only [Bool.or_eq_true, decide_eq_true_eq]
        omega
      simp [hb1, hb2, h1, h2]
  · have hb1 : (decide (jc.length < 10) || decide (jc.length > 100)) = true := by
      simp only [Bool.or_eq_true, decide_eq_true_eq]
      omega
    simp [hb1, h1]

lemma build_metadata_eq (jc mh nm ds vr : Bytes) :
    convenience.build_metadata jc mh nm ds vr =
      MetadataValidator.new.validate_and_parse jc mh nm ds vr [] := rfl

lemma validate_cid_and_hash_eq (jc mh : Bytes) :
    convenience.validate_cid_and_hash jc mh =
      if ¬(10 ≤ jc.length ∧ jc.length ≤ 100) then .error .CidTooLong
      else if ¬(32 ≤ mh.length ∧ mh.length ≤ 128) then .error .CidTooLong
      else .ok () := by
  unfold convenience.validate_cid_and_hash
  simp only [validate_cid_new_iff, validate_model_hash_new_iff]
  by_cases h1 : 10 ≤ jc.length ∧ jc.length ≤ 100 <;>
    by_cases h2 : 32 ≤ mh.length ∧ mh.length ≤ 128 <;>
      simp [h1, h2, Bind.bind, Except.bind]

/-! ### Claim theorems -/

/-- C1: building a record through the builder path (`convenience::build_metadata`,
i.e. `with_cid`/`with_hash`/`with_name`/`with_description`/`with_version`
followed by `build`) yields exactly the same result as the direct parse path
(`MetadataValidator::validate_and_parse` with an empty `extra_fields` vector):
both succeed with identical `AgentMetadata` values or fail with the identical
error. -/
theorem builder_parser_equivalence (jc mh nm ds vr : Bytes) :
    convenience.build_metadata jc mh nm ds vr =
      MetadataValidator.new.validate_and_parse jc mh nm ds vr [] :=
  build_metadata_eq jc mh nm ds vr

/-- C2: CID validation (`cid::is_valid_cid` and the parser's content-id check)
succeeds iff `10 ≤ len ≤ 100`; on failure the canonical error is
`InvalidLength` (surfaced as legacy `CidTooLong`), and the outcome depends on
nothing but the length. -/
theorem cid_validation_characterization (b b' : Bytes) (hlen : b.length = b'.length) :
    (cid.is_valid_cid b = true ↔ 10 ≤ b.length ∧ b.length ≤ 100) ∧
    (MetadataValidator.new.validate_cid b = .ok () ↔ 10 ≤ b.length ∧ b.length ≤ 100) ∧
    (¬(10 ≤ b.length ∧ b.length ≤ 100) →
      MetadataParser.new.parse_cid b = .error .InvalidLength ∧
      MetadataValidator.new.validate_cid b =
        .error (MetadataError.from_validation_error .InvalidLength) ∧
      MetadataValidator.new.validate_cid b = .error .CidTooLong) ∧
    cid.is_valid_cid b = cid.is_valid_cid b' ∧
    MetadataValidator.new.validate_cid b = MetadataValidator.new.validate_cid b' := by
  refine ⟨is_valid_cid_iff b, ?_, ?_, ?_, ?_⟩
  · rw [validate_cid_new_iff]
    by_cases hc : 10 ≤ b.length ∧ b.length ≤ 100 <;> simp [hc]
  · intro hc
    rw [parse_cid_new_iff, validate_cid_new_iff, if_neg hc, if_neg hc]
    exact ⟨rfl, rfl, rfl⟩
  · unfold cid.is_valid_cid
    simp only [hlen]
  · rw [validate_cid_new_eq, validate_cid_new_eq, hlen]

/-- C2 witness: a length-5 CID fails the standalone check with `CidTooLong`. -/
theorem cid_validation_characterization_witness :
    MetadataValidator.new.validate_cid (List.replicate 5 0) = .error .CidTooLong := by
  have h := cid_validation_characterization (List.replicate 5 0) (List.replicate 5 1) (by decide)
  exact (h.2.2.1 (by decide)).2.2

/-- C3: hash validation (`hash::is_valid_hash` and the parser's
integrity-hash check) succeeds iff `32 ≤ len ≤ 128`; on failure the canonical
error is `InvalidLength`, and the outcome depends on nothing but the length
(no character-set validation). -/
theorem hash_validation_characterization (b b' : Bytes) (hlen : b.length = b'.length) :
    (hash.is_valid_hash b = true ↔ 32 ≤ b.length ∧ b.length ≤ 128) ∧
    (MetadataValidator.new.validate_model_hash b = .ok () ↔ 32 ≤ b.length ∧ b.length ≤ 128) ∧
    (¬(32 ≤ b.length ∧ b.length ≤ 128) →
      MetadataParser.new.parse_hash b = .error .InvalidLength ∧
      MetadataValidator.new.validate_model_hash b =
        .error (MetadataError.from_validation_error .InvalidLength)) ∧
    hash.is_valid_hash b = hash.is_valid_hash b' ∧
    MetadataValidator.new.validate_model_hash b = MetadataValidator.new.validate_model_hash b' := by
  refine ⟨is_valid_hash_iff b, ?_, ?_, ?_, ?_⟩
  · rw [validate_model_hash_new_iff]
    by_cases hc : 32 ≤ b.length ∧ b.length ≤ 128 <;> simp [hc]
  · intro hc
    rw [parse_hash_new_iff, validate_model_hash_new_iff, if_neg hc, if_neg hc]
    exact ⟨rfl, rfl⟩
  · unfold hash.is_valid_hash
    simp only [hlen]
  · rw [validate_model_hash_new_eq, validate_model_hash_new_eq, hlen]

/-- C3 witness: a length-3 hash fails the parser's check with canonical
`InvalidLength`. -/
theorem hash_validation_characterization_witness :
    MetadataParser.new.parse_hash [97, 98, 99] = .error .InvalidLength := by
  have h := hash_validation_characterization [97, 98, 99] [1, 2, 3] (by decide)
  exact (h.2.2.1 (by decide)).1

/-- C4: validation short-circuits in the fixed order content id, hash, name.
Whenever the CID is invalid the result is the CID check's own error
(canonical `InvalidLength`, legacy `CidTooLong`), regardless of the hash —
in particular on a record invalid in both CID and hash; a valid CID with an
invalid hash yields the hash error; valid CID and hash with an empty name
yields `MissingRequiredField`. -/
theorem validation_order_first_failure (jc mh nm ds vr : Bytes) (ef : List (Bytes × Bytes)) :
    (¬(10 ≤ jc.length ∧ jc.length ≤ 100) →
      MetadataValidator.new.validate_cid jc = .error .CidTooLong ∧
      MetadataValidator.new.validate_and_parse jc mh nm ds vr ef = .error .CidTooLong ∧
      convenience.validate_cid_and_hash jc mh = .error .CidTooLong ∧
      MetadataParser.new.parse_metadata jc mh nm ds vr ef = .error .InvalidLength) ∧
    ((10 ≤ jc.length ∧ jc.length ≤ 100) → ¬(32 ≤ mh.length ∧ mh.length ≤ 128) →
      MetadataValidator.new.validate_and_parse jc mh nm ds vr ef =
        .error (MetadataError.from_validation_error .InvalidLength) ∧
      convenience.validate_cid_and_hash jc mh = .error .CidTooLong) ∧
    ((10 ≤ jc.length ∧ jc.length ≤ 100) → (32 ≤ mh.length ∧ mh.length ≤ 128) → nm = [] →
      MetadataValidator.new.validate_and_parse jc mh nm ds vr ef =
        .error .MissingRequiredField) := by
  refine ⟨?_, ?_, ?_⟩
  · intro h1
    rw [validate_cid_new_iff, if_neg h1, validate_and_parse_new_iff, if_pos h1,
      validate_cid_and_hash_eq, if_pos h1, parse_metadata_new_eq]
    have hb1 : (decide (jc.length < 10) || decide (jc.length > 100)) = true := by
      simp only [Bool.or_eq_true, decide_eq_true_eq]
      omega
    simp [hb1]
  · intro h1 h2
    rw [validate_and_parse_new_iff, if_neg (not_not_intro h1), if_pos h2,
      validate_cid_and_hash_eq, if_neg (not_not_intro h1), if_pos h2]
    exact ⟨rfl, rfl⟩
  · intro h1 h2 h3
    rw [validate_and_parse_new_iff, if_neg (not_not_intro h1), if_neg (not_not_intro h2),
      if_pos h3]

/-- C4 witness: a record invalid in both CID (length 2) and hash (length 3)
is rejected with the CID error. -/
theorem validation_order_first_failure_witness :
    MetadataValidator.new.validate_and_parse [81, 109] [97, 98, 99] [65] [] [] [] =
      .error .CidTooLong := by
  have h := validation_order_first_failure [81, 109] [97, 98, 99] [65] [] [] []
  exact (h.1 (by decide)).2.1

/-- C5: `MetadataValidator::verify_hash` succeeds iff the two byte sequences
are byte-for-byte equal (sequences of different lengths always fail), and on
mismatch fails with `HashVerificationFailed` and with no other kind. -/
theorem verify_hash_characterization (a b : Bytes) :
    (MetadataValidator.new.verify_hash a b = .ok () ↔ a = b) ∧
    (a ≠ b → MetadataValidator.new.verify_hash a b = .error .HashVerificationFailed) ∧
    (a.length ≠ b.length → MetadataValidator.new.verify_hash a b =
      .error .HashVerificationFailed) ∧
    (MetadataValidator.new.verify_hash a b = .ok () ∨
      MetadataValidator.new.verify_hash a b = .error .HashVerificationFailed) := by
  unfold MetadataValidator.verify_hash
  by_cases hab : a = b <;> simp [hab]

/-- C5 witness: equal-length but different sequences fail with
`HashVerificationFailed`. -/
theorem verify_hash_characterization_witness :
    MetadataValidator.new.verify_hash [1, 2] [1, 3] = .error .HashVerificationFailed :=
  (verify_hash_characterization [1, 2] [1, 3]).2.1 (by decide)

/-- C6 counterexample: the canonical `ValidationError` type does not consist
of seven kinds — the exhaustive legacy mapping pins it to six, so
`HashVerificationFailed` is not among its canonical kinds. -/
theorem validation_error_not_seven_kinds : ¬ Fintype.card ValidationError = 7 := by decide

/-- C6 (amended): the canonical `ValidationError` type is exactly the closed
set of six kinds `InvalidJsonStructure`, `MissingRequiredField`,
`InvalidCidFormat`, `InvalidHashFormat`, `InvalidFormat` and `InvalidLength`;
`HashVerificationFailed` exists only as a legacy kind, whose canonical image
is `InvalidHashFormat`. -/
theorem validation_error_closed_set :
    Fintype.card ValidationError = 6 ∧
    (∀ e : ValidationError,
      e = .InvalidJsonStructure ∨ e = .MissingRequiredField ∨ e = .InvalidCidFormat ∨
      e = .InvalidHashFormat ∨ e = .InvalidFormat ∨ e = .InvalidLength) ∧
    MetadataError.HashVerificationFailed.to_validation_error = .InvalidHashFormat := by
  refine ⟨by decide, ?_, rfl⟩
  intro e
  cases e <;> simp

/-- C7: for every canonical `ValidationError` kind `k` (so in particular for
every chosen representative), `from_validation_error` followed by
`to_validation_error` returns `k`; both mappings are total, and the
round-trip from the non-representative legacy kind `HashTooLong` lands on
the representative `CidTooLong` instead. -/
theorem legacy_canonical_roundtrip :
    (∀ k : ValidationError,
      (MetadataError.from_validation_error k).to_validation_error = k) ∧
    MetadataError.from_validation_error MetadataError.HashTooLong.to_validation_error =
      .CidTooLong := by
  refine ⟨?_, rfl⟩
  intro k
  cases k <;> rfl

/-- C8: every `AgentMetadata` produced by a successful `validate_and_parse`
or a successful builder `build_metadata` has `json_cid` length in `[10, 100]`,
`model_hash` length in `[32, 128]`, and a non-empty `name`. -/
theorem record_invariants (jc mh nm ds vr : Bytes) (ef : List (Bytes × Bytes))
    (m : AgentMetadata) :
    (MetadataValidator.new.validate_and_parse jc mh nm ds vr ef = .ok m →
      10 ≤ m.json_cid.length ∧ m.json_cid.length ≤ 100 ∧
      32 ≤ m.model_hash.length ∧ m.model_hash.length ≤ 128 ∧ m.name ≠ []) ∧
    (convenience.build_metadata jc mh nm ds vr = .ok m →
      10 ≤ m.json_cid.length ∧ m.json_cid.length ≤ 100 ∧
      32 ≤ m.model_hash.length ∧ m.model_hash.length ≤ 128 ∧ m.name ≠ []) := by
  have main : MetadataValidator.new.validate_and_parse jc mh nm ds vr ef = .ok m →
      10 ≤ m.json_cid.length ∧ m.json_cid.length ≤ 100 ∧
      32 ≤ m.model_hash.length ∧ m.model_hash.length ≤ 128 ∧ m.name ≠ [] := by
    intro h
    rw [validate_and_parse_new_iff] at h
    split_ifs at h with h1 h2 h3
    · injection h with hm
      subst hm
      exact ⟨h1.1, h1.2, h2.1, h2.2, h3⟩
  have mainb : convenience.build_metadata jc mh nm ds vr = .ok m →
      10 ≤ m.json_cid.length ∧ m.json_cid.length ≤ 100 ∧
      32 ≤ m.model_hash.length ∧ m.model_hash.length ≤ 128 ∧ m.name ≠ [] := by
    intro h
    rw [build_metadata_eq] at h
    rw [validate_and_parse_new_iff] at h
    split_ifs at h with h1 h2 h3
    · injection h with hm
      subst hm
      exact ⟨h1.1, h1.2, h2.1, h2.2, h3⟩
  exact ⟨main, mainb⟩

/-- C8 witness: a record built from a length-10 CID, a length-32 hash, and a
one-byte name satisfies the invariant. -/
theorem record_invariants_witness :
    10 ≤ (AgentMetadata.mk (List.replicate 10 0) (List.replicate 32 0) [65] [] []
      []).json_cid.length := by
  have h := record_invariants (List.replicate 10 0) (List.replicate 32 0) [65] [] [] []
    (AgentMetadata.mk (List.replicate 10 0) (List.replicate 32 0) [65] [] [] [])
  exact (h.1 (by rfl)).1

/-- Byte sequence of a string literal, one byte value per character. -/
def strBytes (s : String) : Bytes := s.data.map Char.toNat

/-- The CID of end-to-end example 1 of the spec. -/
def example1_cid : Bytes := strBytes "QmYwAPJzv5CZsnA625s3Xf2nemtYgPpHdWEz79ojWnPbdG"

/-- The hash of end-to-end example 1 of the spec. -/
def example1_hash : Bytes := strBytes "a1b2c3d4e5f6789012345678901234567890abcdef"

/-- The name of end-to-end example 1 of the spec. -/
def example1_name : Bytes := strBytes "TestAgent"

/-- The description of end-to-end example 1 of the spec. -/
def example1_description : Bytes := strBytes "A test agent for validation"

/-- The version of end-to-end example 1 of the spec. -/
def example1_version : Bytes := strBytes "1.0.0"

/-- C9: whenever `validate_and_parse` succeeds, every field of the returned
`AgentMetadata` is byte-for-byte the corresponding input, including
`extra_fields` in order. -/
theorem validate_pass_through (jc mh nm ds vr : Bytes) (ef : List (Bytes × Bytes))
    (m : AgentMetadata)
    (h : MetadataValidator.new.validate_and_parse jc mh nm ds vr ef = .ok m) :
    m.json_cid = jc ∧ m.model_hash = mh ∧ m.name = nm ∧ m.description = ds ∧
    m.version = vr ∧ m.extra_fields = ef := by
  rw [validate_and_parse_new_iff] at h
  split_ifs at h with h1 h2 h3
  · injection h with hm
    subst hm
    exact ⟨rfl, rfl, rfl, rfl, rfl, rfl⟩

/-- C9 witness: end-to-end example 1 — valid-length CID and hash, name
`TestAgent`, description `A test agent for validation`, version `1.0.0`, no
extra fields — succeeds and returns exactly the input values. -/
theorem validate_pass_through_witness :
    MetadataValidator.new.validate_and_parse example1_cid example1_hash example1_name
        example1_description example1_version [] =
      .ok (AgentMetadata.mk example1_cid example1_hash example1_name example1_description
        example1_version []) ∧
    (AgentMetadata.mk example1_cid example1_hash example1_name example1_description
        example1_version []).json_cid = example1_cid ∧
    (AgentMetadata.mk example1_cid example1_hash example1_name example1_description
        example1_version []).model_hash = example1_hash ∧
    (AgentMetadata.mk example1_cid example1_hash example1_name example1_description
        example1_version []).name = example1_name ∧
    (AgentMetadata.mk example1_cid example1_hash example1_name example1_description
        example1_version []).description = example1_description ∧
    (AgentMetadata.mk example1_cid example1_hash example1_name example1_description
        example1_version []).version = example1_version ∧
    (AgentMetadata.mk example1_cid example1_hash example1_name example1_description
        example1_version []).extra_fields = [] := by
  have h := validate_pass_through example1_cid example1_hash example1_name
    example1_description example1_version []
    (AgentMetadata.mk example1_cid example1_hash example1_name example1_description
      example1_version []) (by rfl)
  exact ⟨by rfl, h⟩

/-- C10: `convenience::validate_metadata_quick` returns exactly the same
result as `MetadataValidator::new().validate_and_parse` on the same five
fields with an empty `extra_fields` vector. -/
theorem validate_metadata_quick_eq_validate_and_parse (jc mh nm ds vr : Bytes) :
    convenience.validate_metadata_quick jc mh nm ds vr =
      MetadataValidator.new.validate_and_parse jc mh nm ds vr [] := rfl
